import Mathlib

/-!
Shallow embedding of the dispatcher-agents orchestration core
(backend/agents/conversation_state.py, backend/agents/multi_agent_worker.py,
backend/src/services/conversation_service.py, backend/check_conversation_status.py)
together with theorems settling the specification claims about it.

Python dictionaries holding string keys and string values are embedded as
ordered association lists; Python exceptions are embedded with the Except
monad; asyncio time is embedded as a Nat count of seconds threaded through
the control loop.
-/

namespace DispatcherAgents

set_option maxRecDepth 16384

/-- A Python dict with string keys and string values, as an ordered
association list of key-value pairs. -/
abbrev PyDict := List (String × String)

/-- Dictionary key lookup: the value at the first occurrence of the key,
mirroring Python `d.get(k)`. -/
def lookupKey (d : PyDict) (k : String) : Option String :=
  (d.find? (fun p => p.1 = k)).map (fun p => p.2)

/-- A session handle as held by the shared state: an abstract reference whose
only observable behaviour here is the outcome of its `aclose()` call
(`ok` if the close succeeds, `error` if closing raises). -/
structure Session where
  closeResult : Except String Unit

/-- The `aclose()` call on a session handle, which may raise. -/
def Session.aclose (s : Session) : Except String Unit :=
  s.closeResult

/-- The fields of `ConversationState._state` (conversation_state.py, lines
18-27): concluded flag, the two optional session handles, the optional room
handle, and the ordered message history.  Each message is the dict literal
appended by `add_message`.  The asyncio lock serialises access; in this
sequential embedding every operation is atomic, so the lock carries no
information and is omitted. -/
structure ConvState where
  concluded : Bool
  dispatcher_session : Option Session
  driver_session : Option Session
  room : Option String
  messages : List PyDict

/-- `ConversationState.reset` (conversation_state.py, lines 29-36). -/
def reset (_st : ConvState) : ConvState :=
  { concluded := false
    dispatcher_session := none
    driver_session := none
    room := none
    messages := [] }

/-- `ConversationState.set_concluded` (lines 38-41). -/
def set_concluded (st : ConvState) (value : Bool) : ConvState :=
  { st with concluded := value }

/-- `ConversationState.is_concluded` (lines 43-46). -/
def is_concluded (st : ConvState) : Bool :=
  st.concluded

/-- `ConversationState.set_dispatcher_session` (lines 48-51). -/
def set_dispatcher_session (st : ConvState) (session : Session) : ConvState :=
  { st with dispatcher_session := some session }

/-- `ConversationState.set_driver_session` (lines 53-56). -/
def set_driver_session (st : ConvState) (session : Session) : ConvState :=
  { st with driver_session := some session }

/-- `ConversationState.get_dispatcher_session` (lines 58-61). -/
def get_dispatcher_session (st : ConvState) : Option Session :=
  st.dispatcher_session

/-- `ConversationState.get_driver_session` (lines 63-66). -/
def get_driver_session (st : ConvState) : Option Session :=
  st.driver_session

/-- `ConversationState.set_room` (lines 68-71). -/
def set_room (st : ConvState) (room : String) : ConvState :=
  { st with room := some room }

/-- `ConversationState.get_room` (lines 73-76). -/
def get_room (st : ConvState) : Option String :=
  st.room

/-- The dict literal appended by `add_message` (conversation_state.py,
lines 82-85): two entries, the speaker label under the key `speaker` and
the utterance text under the key `message`. -/
def mkMessage (speaker message : String) : PyDict :=
  [("speaker", speaker), ("message", message)]

/-- `ConversationState.add_message` (lines 79-86): appends the dict literal
to the history (the log side effect is not modelled). -/
def add_message (st : ConvState) (speaker message : String) : ConvState :=
  { st with messages := st.messages ++ [mkMessage speaker message] }

/-- `ConversationState.get_messages` (lines 88-91): a snapshot copy of the
history; copying is the identity on immutable lists. -/
def get_messages (st : ConvState) : List PyDict :=
  st.messages

/-- Python slice `l[-count:]` for a natural `count`: the whole list when
`count = 0` (since `-0 = 0`), otherwise the last `count` elements. -/
def pySliceLast (l : List PyDict) (count : Nat) : List PyDict :=
  if count = 0 then l else l.drop (l.length - count)

/-- `ConversationState.get_last_messages` (lines 93-96):
`self._state["messages"][-count:] if self._state["messages"] else []`. -/
def get_last_messages (st : ConvState) (count : Nat) : List PyDict :=
  if st.messages = [] then [] else pySliceLast st.messages count

/-- `ConversationState.format_conversation_context` (lines 98-107). -/
def format_conversation_context (st : ConvState) : String :=
  if st.messages = [] then
    "No previous messages in this conversation yet."
  else
    "Previous conversation:\n" ++
      String.join (st.messages.map (fun msg =>
        "- " ++ (lookupKey msg "speaker").getD "" ++ ": " ++
          (lookupKey msg "message").getD "" ++ "\n"))

/-- One arm of `disconnect_all` (conversation_state.py, lines 112-116 and
117-121): attempt `aclose()` on a present session inside `try ... except:
pass`, recording that the close on this handle was attempted and whether
it completed without raising.  The except-clause swallows the failure, so
the arm itself never raises. -/
def closeArm (label : String) (s : Session) : Except String (List (String × Bool)) :=
  tryCatch
    (do
      let _ ← s.aclose
      pure [(label, true)])
    (fun _ => pure [(label, false)])

/-- `ConversationState.disconnect_all` (lines 109-121): for each of the two
session handles in turn, if present, attempt its close inside its own
try-except.  The result lists the attempted closes in program order; an
`error` result would mean an exception escaped to the caller. -/
def disconnect_all (st : ConvState) : Except String (List (String × Bool)) := do
  let a ← match st.dispatcher_session with
    | some s => closeArm "dispatcher" s
    | none => pure []
  let b ← match st.driver_session with
    | some s => closeArm "driver" s
    | none => pure []
  pure (a ++ b)

/-! ## ConversationService (backend/src/services/conversation_service.py) -/

/-- The `end_phrases` list of `ConversationService._is_conversation_complete`
(conversation_service.py, lines 86-97). -/
def end_phrases : List String :=
  ["thanks", "thank you", "talk soon", "have a good one", "see you",
   "bye", "goodbye", "sounds good", "perfect", "will do"]

/-- Python `text.lower()`, on the character sequence of the string. -/
def pyLower (s : String) : List Char :=
  s.data.map Char.toLower

/-- Python `s.split()` with no argument: split the character sequence on
whitespace and discard empty pieces. -/
def pyWords (cs : List Char) : List (List Char) :=
  (cs.splitOnP Char.isWhitespace).filter (fun w => w ≠ [])

/-- Python substring test `needle in haystack`: the needle occurs as a
contiguous run somewhere in the haystack. -/
def pyContains (haystack needle : List Char) : Bool :=
  (List.range (haystack.length + 1)).any (fun k => needle.isPrefixOf (haystack.drop k))

/-- `ConversationService._is_conversation_complete` (conversation_service.py,
lines 75-106): lowercase the text; if it has at most 15 words, report
completion exactly when some closing phrase occurs in it. -/
def is_conversation_complete (text : String) : Bool :=
  let text_lower := pyLower text
  let words := pyWords text_lower
  if words.length ≤ 15 then
    end_phrases.any (fun phrase => pyContains text_lower phrase.data)
  else
    false

/-- A `ConversationTurn` (conversation_service.py, lines 9-16); the
timestamp field is observability only and not modelled. -/
structure ConversationTurn where
  speaker : String
  text : String

/-- `ConversationService._conversation_to_messages` (lines 57-73): each turn
becomes a role-content dict, `assistant` for the given speaker and `user`
for the other side. -/
def _conversation_to_messages (conversation : List ConversationTurn) (speaker : String) :
    List PyDict :=
  conversation.map (fun turn =>
    [("role", if turn.speaker = speaker then "assistant" else "user"),
     ("content", turn.text)])

/-- The `for turn_num in range(max_turns)` loop of
`ConversationService.generate_conversation` (lines 182-209).  The external
LLM is an oracle from the prepared message list to the generated text.
Each iteration appends a Driver turn, stops if the completion heuristic
fires on it, otherwise appends a Dispatcher turn and stops if the heuristic
fires on that; `dispatcher_messages` is the incrementally maintained
dispatcher-perspective history from lines 176-179 and 199-205. -/
def convLoop (llm : List PyDict → String) (driver_system : String) :
    Nat → List ConversationTurn → List PyDict → List ConversationTurn
  | 0, conversation, _ => conversation
  | n + 1, conversation, dispatcher_messages =>
    let driver_messages :=
      [("role", "system"), ("content", driver_system)] ::
        _conversation_to_messages conversation "Driver"
    let driver_response := llm driver_messages
    let conversation := conversation ++ [⟨"Driver", driver_response⟩]
    if is_conversation_complete driver_response then conversation
    else
      let dispatcher_messages :=
        dispatcher_messages ++ [[("role", "user"), ("content", driver_response)]]
      let dispatcher_response := llm dispatcher_messages
      let conversation := conversation ++ [⟨"Dispatcher", dispatcher_response⟩]
      let dispatcher_messages :=
        dispatcher_messages ++ [[("role", "assistant"), ("content", dispatcher_response)]]
      if is_conversation_complete dispatcher_response then conversation
      else convLoop llm driver_system n conversation dispatcher_messages

/-- `ConversationService.generate_conversation` (lines 108-223): the
dispatcher opening is generated first and appended as the first turn, then
the alternating loop runs for at most `max_turns` iterations.  The system
prompt strings are those built at lines 147-162; Langfuse tracing is
observability only and not modelled. -/
def generate_conversation (llm : List PyDict → String)
    (dispatcher_system driver_system : String) (max_turns : Nat) :
    List ConversationTurn :=
  let dispatcher_message := llm
    [[("role", "system"), ("content", dispatcher_system)],
     [("role", "user"), ("content", "Start the conversation with a friendly greeting.")]]
  let conversation := [⟨"Dispatcher", dispatcher_message⟩]
  let dispatcher_messages :=
    [[("role", "system"), ("content", dispatcher_system)],
     [("role", "assistant"), ("content", dispatcher_message)]]
  convLoop llm driver_system max_turns conversation dispatcher_messages

/-! ## Metadata resolution (backend/agents/multi_agent_worker.py, lines 41-122) -/

/-- One room entry of the `list_rooms` response: a name and a metadata
blob, the empty string standing for absent metadata. -/
structure RoomInfo where
  name : String
  metadata : String

/-- The inner `for room in rooms_response.rooms` scan of one fetch attempt
(multi_agent_worker.py, lines 82-91): the metadata of the first listed room
whose name matches the target and whose metadata is non-empty; a matching
room with empty metadata is skipped and the scan continues. -/
def findRoomMetadata (target : String) : List RoomInfo → Option String
  | [] => none
  | r :: rest =>
    if r.name = target ∧ r.metadata ≠ "" then some r.metadata
    else findRoomMetadata target rest

/-- The `for attempt in range(max_retries)` retry loop (lines 69-101) with
`remaining` attempts left, about to make attempt number `attempt`
(0-based), having slept `sleeps` times so far.  On a successful attempt the
loop exits at once; otherwise it sleeps 0.5 s, except after the final
attempt, and retries.  Returns the metadata found (if any), the number of
attempts made, and the number of 0.5-second sleeps taken. -/
def metadataRetryAux (fetch : Nat → List RoomInfo) (target : String) :
    Nat → Nat → Nat → Option String × Nat × Nat
  | 0, attempt, sleeps => (none, attempt, sleeps)
  | remaining + 1, attempt, sleeps =>
    match findRoomMetadata target (fetch attempt) with
    | some m => (some m, attempt + 1, sleeps)
    | none =>
      match remaining with
      | 0 => (none, attempt + 1, sleeps)
      | _ + 1 => metadataRetryAux fetch target remaining (attempt + 1) (sleeps + 1)

/-- The full retry loop with `max_retries = 5` and `retry_delay = 0.5`
(lines 69-70). -/
def metadataRetry (fetch : Nat → List RoomInfo) (target : String) :
    Option String × Nat × Nat :=
  metadataRetryAux fetch target 5 0 0

/-- The fallback path guarded by `if not room_metadata` (lines 43-107):
when the initially attached metadata is empty the retry loop runs,
otherwise the initial metadata is used with no fetch and no sleep. -/
def resolve_room_metadata (initial : String) (fetch : Nat → List RoomInfo)
    (target : String) : Option String × Nat × Nat :=
  if initial = "" then metadataRetry fetch target
  else (some initial, 0, 0)

/-- The two agent-config substructures of the decoded metadata blob:
`metadata.get("dispatcherAgent", \x7b\x7d)` and
`metadata.get("driverAgent", \x7b\x7d)` (lines 116-117), each a dict,
empty when the key is absent. -/
structure RoomMeta where
  dispatcherAgent : PyDict
  driverAgent : PyDict

/-- The parse step (lines 110-122): when metadata was resolved, decode it
with `json.loads` (an oracle that may raise, modelled as Except); on
success extract the two agent configs, on failure log and keep the empty
default configs; when no metadata was resolved the configs also stay
empty.  No exception escapes. -/
def parseConfigs (json_loads : String → Except String RoomMeta)
    (room_metadata : Option String) : PyDict × PyDict :=
  match room_metadata with
  | none => ([], [])
  | some blob =>
    match json_loads blob with
    | Except.ok meta => (meta.dispatcherAgent, meta.driverAgent)
    | Except.error _ => ([], [])

/-! ## The multi-agent worker turn loop (multi_agent_worker.py, lines 236-353) -/

/-- How the worker loop exits: the while-condition observing the concluded
flag (natural conclusion), the safety-timeout break, or a break caused by a
raising `generate_reply` call. -/
inductive Outcome
  | concluded
  | timedOut
  | failed
deriving DecidableEq

/-- The externally observable behaviour of one `generate_reply` call: the
wall-clock seconds it consumes, whether the agent invoked its
`end_conversation` tool during the call (which sets the shared concluded
flag), and whether the call completed without raising. -/
structure TurnResult where
  ok : Bool
  duration : Nat
  signalsEnd : Bool

/-- The external world driving one worker run: the behaviour of the opening
`generate_reply` and of the driver and dispatcher calls on each loop
iteration. -/
structure WorkerEnv where
  openingTurn : TurnResult
  driverTurn : Nat → TurnResult
  dispatcherTurn : Nat → TurnResult

/-- The `while not await shared_state.is_concluded()` loop
(multi_agent_worker.py, lines 262-350), on iteration `i`, with `elapsed`
seconds of wall-clock time since `start_time`.  Each iteration: check the
concluded flag, check the 600-second safety ceiling, sleep 2 s, run the
driver turn (a raising call breaks the loop; an `end_conversation` tool
call during it latches the concluded flag), append the driver placeholder
message, re-check conclusion, sleep 2 s, run the dispatcher turn likewise,
and repeat.  Each iteration advances time by at least the two 2-second
sleeps, so the loop terminates. -/
def workerLoop (env : WorkerEnv) (st : ConvState) (elapsed : Nat) (i : Nat) :
    ConvState × Nat × Outcome :=
  if is_concluded st then (st, elapsed, Outcome.concluded)
  else if h600 : 600 < elapsed then (st, elapsed, Outcome.timedOut)
  else
    let t1 := elapsed + 2
    let dr := env.driverTurn i
    let st1 := if dr.signalsEnd then set_concluded st true else st
    let t2 := t1 + dr.duration
    if dr.ok = false then (st1, t2, Outcome.failed)
    else
      let st2 := add_message st1 "Chris (Driver)" "Responded to dispatcher"
      if is_concluded st2 then (st2, t2, Outcome.concluded)
      else
        let t3 := t2 + 2
        let dp := env.dispatcherTurn i
        let st3 := if dp.signalsEnd then set_concluded st2 true else st2
        let t4 := t3 + dp.duration
        if dp.ok = false then (st3, t4, Outcome.failed)
        else
          let st4 := add_message st3 "Tim (Dispatcher)" "Responded to driver"
          if is_concluded st4 then (st4, t4, Outcome.concluded)
          else workerLoop env st4 t4 (i + 1)
termination_by 601 - elapsed
decreasing_by
  omega

/-- The state-relevant part of the worker `entrypoint`
(multi_agent_worker.py, lines 174-353): both agent sessions are created and
started as local variables only — the entrypoint never registers them in
the shared state — then `reset()` is called, the opening dispatcher turn
runs (a raising opening aborts the run before the loop), its placeholder
message is appended, and the turn loop runs from time 0.  The
`_utterances` oracle stands for the speech actually generated by the
realtime sessions, which the entrypoint never reads: it is an argument the
run provably ignores. -/
def runWorker (env : WorkerEnv) (prior : ConvState) (_utterances : Nat → String) :
    ConvState × Nat × Outcome :=
  let st := reset prior
  let op := env.openingTurn
  let st := if op.signalsEnd then set_concluded st true else st
  if op.ok = false then (st, 0, Outcome.failed)
  else
    let st := add_message st "Tim (Dispatcher)" "Initiated greeting"
    workerLoop env st 0 0

/-- The per-message line printed by `check_status`
(check_conversation_status.py, lines 47-50): the speaker read from the
entry under the key `speaker` (default the label Unknown) and the
utterance read under the key `message` (default the empty string). -/
def statusLine (msg : PyDict) : String :=
  "  - " ++ (lookupKey msg "speaker").getD "Unknown" ++ ": " ++
    (lookupKey msg "message").getD ""

/-- Whether the aclose call on a session completes without raising. -/
def closeSucceeds (s : Session) : Bool :=
  match s.closeResult with
  | Except.ok _ => true
  | Except.error _ => false

/-! ## Claim theorems -/

/-- C7: for every prior state of the shared conversation state, after
reset() every read observes the cleared state: the message history is
empty, the concluded flag is false, and both session handles and the room
handle are absent. -/
theorem reset_clears_every_read (prior : ConvState) :
    get_messages (reset prior) = [] ∧
    is_concluded (reset prior) = false ∧
    get_dispatcher_session (reset prior) = none ∧
    get_driver_session (reset prior) = none ∧
    get_room (reset prior) = none :=
  ⟨rfl, rfl, rfl, rfl, rfl⟩

/-- C6: for every state of the shared conversation state, disconnect_all
returns without raising, and the attempt list records a close attempt for
each registered session handle — in particular a close attempt on the
driver handle is recorded even when the dispatcher handle is registered
and its close raises, and vice versa.  The attempt list is exactly one
entry per registered handle, in program order, each tagged with whether
its close completed. -/
theorem disconnect_all_attempts_both (st : ConvState) :
    disconnect_all st =
      Except.ok
        ((st.dispatcher_session.map (fun s => ("dispatcher", closeSucceeds s))).toList ++
         (st.driver_session.map (fun s => ("driver", closeSucceeds s))).toList) := by
  rcases st with ⟨c, d, v, r, m⟩
  rcases d with _ | ⟨e | u⟩ <;> rcases v with _ | ⟨e2 | u2⟩ <;>
    simp [disconnect_all, closeArm, Session.aclose, closeSucceeds, tryCatch, tryCatchThe,
      instMonadExceptOfMonadExceptOf, MonadExceptOf.tryCatch, Except.tryCatch,
      bind, Except.bind, pure, Except.pure]

/-- C8 counterexample: at count 0 on a one-entry history, get_last_messages
returns the whole history — Python `messages[-0:]` is `messages[0:]` — so
its result has more than 0 entries, refuting the claim for the natural
number n = 0. -/
theorem get_last_messages_counterexample :
    get_last_messages
        ⟨false, none, none, none, [mkMessage "Tim (Dispatcher)" "Initiated greeting"]⟩ 0 =
      [mkMessage "Tim (Dispatcher)" "Initiated greeting"] ∧
    ¬ ((get_last_messages
        ⟨false, none, none, none, [mkMessage "Tim (Dispatcher)" "Initiated greeting"]⟩ 0).length ≤ 0) := by
  decide

/-- C8 amended: for every count n at least 1 and every state,
get_last_messages returns exactly the last n entries of the history in
order (all entries when the history is shorter than n), and its result
never has more than n entries. -/
theorem get_last_messages_amended (st : ConvState) (n : Nat) (hn : 1 ≤ n) :
    get_last_messages st n = st.messages.drop (st.messages.length - n) ∧
    (get_last_messages st n).length ≤ n ∧
    (st.messages.length ≤ n → get_last_messages st n = st.messages) := by
  have hn0 : ¬ n = 0 := by omega
  unfold get_last_messages pySliceLast
  by_cases hm : st.messages = []
  · simp [hm]
  · rw [if_neg hm, if_neg hn0]
    refine ⟨rfl, ?_, ?_⟩
    · rw [List.length_drop]; omega
    · intro hle
      have hz : st.messages.length - n = 0 := by omega
      rw [hz, List.drop_zero]

/-- C8 witness: the amended theorem applied at count 2 on a concrete
three-entry history yields exactly the last two entries. -/
theorem get_last_messages_amended_witness :
    1 ≤ 2 ∧
    get_last_messages
        ⟨false, none, none, none,
          [mkMessage "Tim (Dispatcher)" "Initiated greeting",
           mkMessage "Chris (Driver)" "Responded to dispatcher",
           mkMessage "Tim (Dispatcher)" "Responded to driver"]⟩ 2 =
      [mkMessage "Chris (Driver)" "Responded to dispatcher",
       mkMessage "Tim (Dispatcher)" "Responded to driver"] := by
  refine ⟨by decide, ?_⟩
  have h := get_last_messages_amended
    ⟨false, none, none, none,
      [mkMessage "Tim (Dispatcher)" "Initiated greeting",
       mkMessage "Chris (Driver)" "Responded to dispatcher",
       mkMessage "Tim (Dispatcher)" "Responded to driver"]⟩ 2 (by decide)
  rw [h.1]
  decide

/-- C9 counterexample: a message appended by add_message on a reachable
state has no entry under the key `text` — the utterance is stored under
the key `message` — refuting the claimed record shape. -/
theorem message_shape_counterexample :
    get_messages (add_message (reset ⟨false, none, none, none, []⟩) "Tim (Dispatcher)" "hello") =
      [mkMessage "Tim (Dispatcher)" "hello"] ∧
    lookupKey (mkMessage "Tim (Dispatcher)" "hello") "text" = none := by
  decide

/-- C9 amended: every entry appended to the sequence returned by
get_messages is a record pairing the speaker label under the key `speaker`
with the utterance text under the key `message` (not `text`), and this is
exactly the shape the transcript status reader consumes. -/
theorem message_shape_amended (st : ConvState) (speaker text : String) :
    get_messages (add_message st speaker text) =
      get_messages st ++ [[("speaker", speaker), ("message", text)]] ∧
    lookupKey (mkMessage speaker text) "speaker" = some speaker ∧
    lookupKey (mkMessage speaker text) "message" = some text ∧
    lookupKey (mkMessage speaker text) "text" = none ∧
    statusLine (mkMessage speaker text) = "  - " ++ speaker ++ ": " ++ text := by
  refine ⟨rfl, ?_, ?_, ?_, ?_⟩ <;>
    simp [lookupKey, mkMessage, statusLine, List.find?]

/-- C3: the heuristic completion check returns true exactly when the
lowercased text has at most 15 words and contains at least one phrase of
the fixed closing-phrase list; in particular the four-word text Sounds
good, talk soon! is detected as conversation-ending, while a 40-word text
containing the word thanks is not. -/
theorem is_conversation_complete_spec :
    (∀ text : String,
      is_conversation_complete text = true ↔
        ((pyWords (pyLower text)).length ≤ 15 ∧
          ∃ phrase ∈ end_phrases, pyContains (pyLower text) phrase.data = true)) ∧
    is_conversation_complete "Sounds good, talk soon!" = true ∧
    (pyWords (pyLower "Sounds good, talk soon!")).length = 4 ∧
    is_conversation_complete "Thanks for the update on the load I will check the trailer and the brakes and the route and call you back later today after I finish the drop and grab some fuel near the yard okay right now friend" = false ∧
    (pyWords (pyLower "Thanks for the update on the load I will check the trailer and the brakes and the route and call you back later today after I finish the drop and grab some fuel near the yard okay right now friend")).length = 40 ∧
    pyContains (pyLower "Thanks for the update on the load I will check the trailer and the brakes and the route and call you back later today after I finish the drop and grab some fuel near the yard okay right now friend") "thanks".data = true := by
  refine ⟨?_, by decide, by decide, by decide, by decide, by decide⟩
  intro text
  unfold is_conversation_complete
  by_cases h : (pyWords (pyLower text)).length ≤ 15
  · simp [h, List.any_eq_true]
  · simp [h]


/-- Unfolding step of the retry loop when the current attempt observes
matching non-empty metadata: the loop exits at once with that metadata. -/
theorem metadataRetryAux_found_step (fetch : Nat → List RoomInfo) (target : String)
    (t a s : Nat) (m : String) (h : findRoomMetadata target (fetch a) = some m) :
    metadataRetryAux fetch target (t + 1) a s = (some m, a + 1, s) := by
  cases t <;> simp [metadataRetryAux, h]

/-- Unfolding step of the retry loop on its final remaining attempt when
nothing is found: the loop ends with no metadata and no further sleep. -/
theorem metadataRetryAux_last_step (fetch : Nat → List RoomInfo) (target : String)
    (a s : Nat) (h : findRoomMetadata target (fetch a) = none) :
    metadataRetryAux fetch target 1 a s = (none, a + 1, s) := by
  simp [metadataRetryAux, h]

/-- Unfolding step of the retry loop on a failed non-final attempt: one
0.5-second sleep is taken and the next attempt begins. -/
theorem metadataRetryAux_retry_step (fetch : Nat → List RoomInfo) (target : String)
    (t a s : Nat) (h : findRoomMetadata target (fetch a) = none) :
    metadataRetryAux fetch target (t + 2) a s =
      metadataRetryAux fetch target (t + 1) (a + 1) (s + 1) := by
  simp [metadataRetryAux, h]

/-- If every remaining attempt observes no matching non-empty metadata,
the retry loop makes all of them, sleeping between consecutive attempts
only, and returns no metadata. -/
theorem metadataRetryAux_none (fetch : Nat → List RoomInfo) (target : String) :
    ∀ r a s, 1 ≤ r →
      (∀ j, j < r → findRoomMetadata target (fetch (a + j)) = none) →
      metadataRetryAux fetch target r a s = (none, a + r, s + (r - 1)) := by
  intro r
  induction r with
  | zero => intro a s h; omega
  | succ t ih =>
    intro a s _ hnone
    have h0 : findRoomMetadata target (fetch a) = none := by
      simpa using hnone 0 (by omega)
    cases t with
    | zero => simpa using metadataRetryAux_last_step fetch target a s h0
    | succ t' =>
      rw [metadataRetryAux_retry_step fetch target t' a s h0]
      rw [ih (a + 1) (s + 1) (by omega)
        (fun j hj => by
          have e : a + 1 + j = a + (j + 1) := by omega
          rw [e]
          exact hnone (j + 1) (by omega))]
      simp only [Prod.mk.injEq]
      refine ⟨trivial, by omega, by omega⟩

/-- If the first k offsets observe nothing and offset k observes matching
metadata m (with k within the remaining attempts), the retry loop returns
m after exactly k + 1 attempts and k sleeps. -/
theorem metadataRetryAux_found (fetch : Nat → List RoomInfo) (target : String) :
    ∀ k r a s m, k < r →
      (∀ j, j < k → findRoomMetadata target (fetch (a + j)) = none) →
      findRoomMetadata target (fetch (a + k)) = some m →
      metadataRetryAux fetch target r a s = (some m, a + k + 1, s + k) := by
  intro k
  induction k with
  | zero =>
    intro r a s m hr _ hfind
    cases r with
    | zero => omega
    | succ t =>
      have ha : findRoomMetadata target (fetch a) = some m := by simpa using hfind
      simpa using metadataRetryAux_found_step fetch target t a s m ha
  | succ k ih =>
    intro r a s m hr hnone hfind
    cases r with
    | zero => omega
    | succ t =>
      have h0 : findRoomMetadata target (fetch a) = none := by
        simpa using hnone 0 (by omega)
      cases t with
      | zero => omega
      | succ t' =>
        rw [metadataRetryAux_retry_step fetch target t' a s h0]
        rw [ih (t' + 1) (a + 1) (s + 1) m (by omega)
          (fun j hj => by
            have e : a + 1 + j = a + (j + 1) := by omega
            rw [e]
            exact hnone (j + 1) (by omega))
          (by
            have e : a + 1 + k = a + (k + 1) := by omega
            rw [e]
            exact hfind)]
        simp only [Prod.mk.injEq]
        refine ⟨trivial, by omega, by omega⟩

/-- C4: the metadata resolver performs at most 5 fetch attempts with one
fixed 0.5-second delay between consecutive attempts (sleeps = attempts
minus one), returns the metadata of the first attempt on which non-empty
metadata for the matching call identifier is observed, and when all 5
attempts find nothing, or when decoding the blob raises, it yields the
empty default configurations; the resolver and parse step are total, so no
exception reaches the caller. -/
theorem metadata_retry_resolves (fetch : Nat → List RoomInfo) (target : String)
    (json_loads : String → Except String RoomMeta) :
    (metadataRetry fetch target).2.1 ≤ 5 ∧
    (metadataRetry fetch target).2.2 = (metadataRetry fetch target).2.1 - 1 ∧
    (∀ k m, k < 5 →
      (∀ j, j < k → findRoomMetadata target (fetch j) = none) →
      findRoomMetadata target (fetch k) = some m →
      metadataRetry fetch target = (some m, k + 1, k)) ∧
    ((∀ j, j < 5 → findRoomMetadata target (fetch j) = none) →
      metadataRetry fetch target = (none, 5, 4) ∧
      parseConfigs json_loads (metadataRetry fetch target).1 = ([], [])) ∧
    (∀ blob e, json_loads blob = Except.error e →
      parseConfigs json_loads (some blob) = ([], [])) := by
  classical
  have hfound : ∀ k m, k < 5 →
      (∀ j, j < k → findRoomMetadata target (fetch j) = none) →
      findRoomMetadata target (fetch k) = some m →
      metadataRetry fetch target = (some m, k + 1, k) := by
    intro k m hk hnone hfind
    have h := metadataRetryAux_found fetch target k 5 0 0 m hk
      (fun j hj => by simpa using hnone j hj) (by simpa using hfind)
    simpa [metadataRetry] using h
  have hnoneAll : (∀ j, j < 5 → findRoomMetadata target (fetch j) = none) →
      metadataRetry fetch target = (none, 5, 4) := by
    intro hall
    have h := metadataRetryAux_none fetch target 5 0 0 (by omega)
      (fun j hj => by simpa using hall j hj)
    simpa [metadataRetry] using h
  have hsplit : ∀ P : Prop,
      ((∀ j, j < 5 → findRoomMetadata target (fetch j) = none) → P) →
      ((∃ j, j < 5 ∧ findRoomMetadata target (fetch j) ≠ none) → P) → P := by
    intro P h1 h2
    by_cases hall : ∀ j, j < 5 → findRoomMetadata target (fetch j) = none
    · exact h1 hall
    · push_neg at hall
      exact h2 hall
  refine ⟨?_, ?_, hfound, ?_, ?_⟩
  · refine hsplit _ (fun hall => ?_) (fun hex => ?_)
    · rw [hnoneAll hall]
    · obtain ⟨hk5, hkne⟩ := Nat.find_spec hex
      obtain ⟨m, hm⟩ := Option.ne_none_iff_exists'.mp hkne
      have hmin : ∀ j, j < Nat.find hex → findRoomMetadata target (fetch j) = none := by
        intro j hj
        have hnot := Nat.find_min hex hj
        by_contra hne
        exact hnot ⟨by omega, hne⟩
      rw [hfound (Nat.find hex) m hk5 hmin hm]
      show Nat.find hex + 1 ≤ 5
      omega
  · refine hsplit _ (fun hall => ?_) (fun hex => ?_)
    · rw [hnoneAll hall]
      rfl
    · obtain ⟨hk5, hkne⟩ := Nat.find_spec hex
      obtain ⟨m, hm⟩ := Option.ne_none_iff_exists'.mp hkne
      have hmin : ∀ j, j < Nat.find hex → findRoomMetadata target (fetch j) = none := by
        intro j hj
        have hnot := Nat.find_min hex hj
        by_contra hne
        exact hnot ⟨by omega, hne⟩
      rw [hfound (Nat.find hex) m hk5 hmin hm]
      show Nat.find hex = Nat.find hex + 1 - 1
      omega
  · intro hall
    exact ⟨hnoneAll hall, by rw [hnoneAll hall]; rfl⟩
  · intro blob e he
    simp [parseConfigs, he]

/-- C4 witness: with metadata absent on attempts 1-3 and present on
attempt 4, the resolver returns the attempt-4 metadata after 4 attempts
and 3 sleeps. -/
theorem metadata_retry_resolves_witness :
    metadataRetry (fun j => if j = 3 then [⟨"call-room", "BLOB"⟩] else []) "call-room" =
      (some "BLOB", 4, 3) := by
  have h := (metadata_retry_resolves (fun j => if j = 3 then [⟨"call-room", "BLOB"⟩] else [])
      "call-room" (fun _ => Except.error "unused")).2.2.1 3 "BLOB" (by decide)
      (by decide) (by decide)
  simpa using h

/-- Worker loop exit when the concluded flag is already observed true at
the top of an iteration: the loop ends as a natural conclusion. -/
theorem workerLoop_concluded_step (env : WorkerEnv) (st : ConvState) (elapsed i : Nat)
    (h : is_concluded st = true) :
    workerLoop env st elapsed i = (st, elapsed, Outcome.concluded) := by
  rw [workerLoop]
  simp [h]

/-- Worker loop exit when the 600-second safety ceiling has been exceeded:
the loop breaks as a timeout. -/
theorem workerLoop_timeout_step (env : WorkerEnv) (st : ConvState) (elapsed i : Nat)
    (h1 : is_concluded st = false) (h2 : 600 < elapsed) :
    workerLoop env st elapsed i = (st, elapsed, Outcome.timedOut) := by
  rw [workerLoop]
  simp [h1, h2]

/-- One full unfolding of a worker loop iteration that passes the
concluded and timeout checks. -/
theorem workerLoop_iter_step (env : WorkerEnv) (st : ConvState) (elapsed i : Nat)
    (h1 : is_concluded st = false) (h2 : ¬ 600 < elapsed) :
    workerLoop env st elapsed i =
      (let t1 := elapsed + 2
       let dr := env.driverTurn i
       let st1 := if dr.signalsEnd then set_concluded st true else st
       let t2 := t1 + dr.duration
       if dr.ok = false then (st1, t2, Outcome.failed)
       else
         let st2 := add_message st1 "Chris (Driver)" "Responded to dispatcher"
         if is_concluded st2 then (st2, t2, Outcome.concluded)
         else
           let t3 := t2 + 2
           let dp := env.dispatcherTurn i
           let st3 := if dp.signalsEnd then set_concluded st2 true else st2
           let t4 := t3 + dp.duration
           if dp.ok = false then (st3, t4, Outcome.failed)
           else
             let st4 := add_message st3 "Tim (Dispatcher)" "Responded to driver"
             if is_concluded st4 then (st4, t4, Outcome.concluded)
             else workerLoop env st4 t4 (i + 1)) := by
  rw [workerLoop]
  simp only [h1, h2, Bool.false_eq_true, if_false, dite_false]

/-- If every driver and dispatcher call succeeds and never signals the
end of the conversation, the worker loop always exits as a timeout with
more than 600 seconds elapsed, by induction on the remaining time
budget. -/
theorem workerLoop_timesOut (env : WorkerEnv)
    (hdr : ∀ j, (env.driverTurn j).ok = true ∧ (env.driverTurn j).signalsEnd = false)
    (hdp : ∀ j, (env.dispatcherTurn j).ok = true ∧ (env.dispatcherTurn j).signalsEnd = false) :
    ∀ n elapsed st i, 601 - elapsed ≤ n → is_concluded st = false →
      (workerLoop env st elapsed i).2.2 = Outcome.timedOut ∧
      600 < (workerLoop env st elapsed i).2.1 := by
  intro n
  induction n with
  | zero =>
    intro elapsed st i hle hst
    have h2 : 600 < elapsed := by omega
    rw [workerLoop_timeout_step env st elapsed i hst h2]
    exact ⟨rfl, h2⟩
  | succ n ih =>
    intro elapsed st i hle hst
    by_cases h2 : 600 < elapsed
    · rw [workerLoop_timeout_step env st elapsed i hst h2]
      exact ⟨rfl, h2⟩
    · rw [workerLoop_iter_step env st elapsed i hst h2]
      obtain ⟨hok, hsig⟩ := hdr i
      obtain ⟨hok2, hsig2⟩ := hdp i
      have hst2 : is_concluded (add_message st "Chris (Driver)" "Responded to dispatcher") = false := by
        simpa [is_concluded, add_message] using hst
      have hst4 : is_concluded
          (add_message (add_message st "Chris (Driver)" "Responded to dispatcher")
            "Tim (Dispatcher)" "Responded to driver") = false := by
        simpa [is_concluded, add_message] using hst
      simp only [hok, hsig, hok2, hsig2, Bool.false_eq_true, if_false, Bool.true_eq_false,
        hst2, hst4]
      exact ih (elapsed + 2 + (env.driverTurn i).duration + 2 + (env.dispatcherTurn i).duration)
        _ (i + 1) (by omega) hst4



/-- Appending a message does not change the concluded flag. -/
theorem is_concluded_add_message (st : ConvState) (a b : String) :
    is_concluded (add_message st a b) = is_concluded st := rfl

/-- Reading the concluded flag after setting it yields the value set. -/
theorem is_concluded_set_concluded (st : ConvState) (b : Bool) :
    is_concluded (set_concluded st b) = b := rfl

/-- C5: if neither agent ever sets the concluded flag and no
turn-generation call fails, the worker loop nonetheless terminates: it
exits as a timeout with elapsed time over the 600-second safety ceiling,
an outcome distinct from a natural conclusion. -/
theorem worker_times_out_without_conclusion (env : WorkerEnv) (prior : ConvState)
    (utter : Nat → String)
    (hopen : env.openingTurn.ok = true) (hosig : env.openingTurn.signalsEnd = false)
    (hdr : ∀ j, (env.driverTurn j).ok = true ∧ (env.driverTurn j).signalsEnd = false)
    (hdp : ∀ j, (env.dispatcherTurn j).ok = true ∧ (env.dispatcherTurn j).signalsEnd = false) :
    (runWorker env prior utter).2.2 = Outcome.timedOut ∧
    600 < (runWorker env prior utter).2.1 ∧
    (runWorker env prior utter).2.2 ≠ Outcome.concluded := by
  have hstart : is_concluded
      (add_message (reset prior) "Tim (Dispatcher)" "Initiated greeting") = false := rfl
  have h := workerLoop_timesOut env hdr hdp 601 0
    (add_message (reset prior) "Tim (Dispatcher)" "Initiated greeting") 0 (by omega) hstart
  unfold runWorker
  simp only [hopen, hosig, Bool.false_eq_true, Bool.true_eq_false, if_false]
  refine ⟨h.1, h.2, ?_⟩
  rw [h.1]
  simp

/-- C5 witness: a concrete run in which every call succeeds, nobody
signals conclusion, and each turn takes 600 seconds times out. -/
theorem worker_times_out_without_conclusion_witness :
    (runWorker
        ⟨⟨true, 0, false⟩, fun _ => ⟨true, 600, false⟩, fun _ => ⟨true, 0, false⟩⟩
        ⟨false, none, none, none, []⟩ (fun _ => "")).2.2 = Outcome.timedOut ∧
    600 < (runWorker
        ⟨⟨true, 0, false⟩, fun _ => ⟨true, 600, false⟩, fun _ => ⟨true, 0, false⟩⟩
        ⟨false, none, none, none, []⟩ (fun _ => "")).2.1 ∧
    (runWorker
        ⟨⟨true, 0, false⟩, fun _ => ⟨true, 600, false⟩, fun _ => ⟨true, 0, false⟩⟩
        ⟨false, none, none, none, []⟩ (fun _ => "")).2.2 ≠ Outcome.concluded :=
  worker_times_out_without_conclusion _ _ _ rfl rfl
    (fun _ => ⟨rfl, rfl⟩) (fun _ => ⟨rfl, rfl⟩)

/-- A state predicate preserved by setting the concluded flag and by
appending either placeholder message is preserved by the whole worker
loop. -/
theorem workerLoop_preserves (env : WorkerEnv) (P : ConvState → Prop)
    (hconc : ∀ st b, P st → P (set_concluded st b))
    (hchris : ∀ st, P st → P (add_message st "Chris (Driver)" "Responded to dispatcher"))
    (htim : ∀ st, P st → P (add_message st "Tim (Dispatcher)" "Responded to driver")) :
    ∀ n elapsed st i, 601 - elapsed ≤ n → P st → P (workerLoop env st elapsed i).1 := by
  intro n
  induction n with
  | zero =>
    intro elapsed st i hle hP
    cases hc : is_concluded st with
    | true => rw [workerLoop_concluded_step env st elapsed i hc]; exact hP
    | false =>
      rw [workerLoop_timeout_step env st elapsed i hc (by omega)]
      exact hP
  | succ n ih =>
    intro elapsed st i hle hP
    cases hc : is_concluded st with
    | true => rw [workerLoop_concluded_step env st elapsed i hc]; exact hP
    | false =>
      by_cases h2 : 600 < elapsed
      · rw [workerLoop_timeout_step env st elapsed i hc h2]; exact hP
      · rw [workerLoop_iter_step env st elapsed i hc h2]
        cases hok : (env.driverTurn i).ok with
        | false =>
          cases hsig : (env.driverTurn i).signalsEnd with
          | true =>
            simp [hok, hsig, is_concluded_add_message, is_concluded_set_concluded, hc]
            exact hconc st true hP
          | false =>
            simp [hok, hsig, is_concluded_add_message, is_concluded_set_concluded, hc]
            exact hP
        | true =>
          cases hsig : (env.driverTurn i).signalsEnd with
          | true =>
            simp [hok, hsig, is_concluded_add_message, is_concluded_set_concluded, hc]
            exact hchris _ (hconc st true hP)
          | false =>
            simp [hok, hsig, is_concluded_add_message, is_concluded_set_concluded, hc]
            cases hok2 : (env.dispatcherTurn i).ok with
            | false =>
              cases hsig2 : (env.dispatcherTurn i).signalsEnd with
              | true =>
                simp [hok2, hsig2, is_concluded_add_message, is_concluded_set_concluded, hc]
                exact hconc _ true (hchris st hP)
              | false =>
                simp [hok2, hsig2, is_concluded_add_message, is_concluded_set_concluded, hc]
                exact hchris st hP
            | true =>
              cases hsig2 : (env.dispatcherTurn i).signalsEnd with
              | true =>
                simp [hok2, hsig2, is_concluded_add_message, is_concluded_set_concluded, hc]
                exact htim _ (hconc _ true (hchris st hP))
              | false =>
                simp [hok2, hsig2, is_concluded_add_message, is_concluded_set_concluded, hc]
                exact ih _ _ (i + 1) (by omega) (htim _ (hchris st hP))


/-- Setting the concluded flag does not change the message history. -/
theorem messages_set_concluded (st : ConvState) (b : Bool) :
    (set_concluded st b).messages = st.messages := rfl

/-- Appending a message appends exactly its dict literal to the
history. -/
theorem messages_add_message (st : ConvState) (a b : String) :
    (add_message st a b).messages = st.messages ++ [mkMessage a b] := rfl

/-- The speaker recorded in an appended message dict. -/
theorem speaker_of_mkMessage (a b : String) :
    lookupKey (mkMessage a b) "speaker" = some a := by
  simp [lookupKey, mkMessage]

/-- Two adjacent history entries carry different speaker labels. -/
def speakerAlt (a b : PyDict) : Prop :=
  lookupKey a "speaker" ≠ lookupKey b "speaker"

/-- Appending a message whose speaker differs from the last entry of an
alternating history keeps the history alternating. -/
theorem chain'_concat_speaker {l : List PyDict} {m : PyDict}
    (hch : List.Chain' speakerAlt l)
    (hlast : ∀ x ∈ l.getLast?, lookupKey x "speaker" ≠ lookupKey m "speaker") :
    List.Chain' speakerAlt (l ++ [m]) := by
  rw [List.chain'_append]
  refine ⟨hch, List.chain'_singleton m, fun x hx y hy => ?_⟩
  simp only [List.head?_cons, Option.mem_def, Option.some.injEq] at hy
  subst hy
  exact hlast x hx

/-- Appending one element to a non-empty list keeps its head. -/
theorem head?_concat_of_ne_nil {α : Type} {l : List α} (m : α) (h : l ≠ []) :
    (l ++ [m]).head? = l.head? := by
  cases l with
  | nil => exact absurd rfl h
  | cons x xs => simp

/-- The worker loop keeps the message history strictly alternating and
keeps its first entry, whenever it starts from an alternating history
whose last speaker is the dispatcher label. -/
theorem workerLoop_alternates (env : WorkerEnv) :
    ∀ n elapsed st i, 601 - elapsed ≤ n →
      List.Chain' speakerAlt st.messages →
      st.messages.getLast?.map (fun m => lookupKey m "speaker") =
        some (some "Tim (Dispatcher)") →
      List.Chain' speakerAlt (workerLoop env st elapsed i).1.messages ∧
      (workerLoop env st elapsed i).1.messages.head? = st.messages.head? := by
  intro n
  induction n with
  | zero =>
    intro elapsed st i hle hch hlast
    cases hc : is_concluded st with
    | true => rw [workerLoop_concluded_step env st elapsed i hc]; exact ⟨hch, rfl⟩
    | false =>
      rw [workerLoop_timeout_step env st elapsed i hc (by omega)]
      exact ⟨hch, rfl⟩
  | succ n ih =>
    intro elapsed st i hle hch hlast
    have hne : st.messages ≠ [] := by
      intro h
      rw [h] at hlast
      simp at hlast
    have hlastx : ∀ x ∈ st.messages.getLast?, lookupKey x "speaker" =
        some "Tim (Dispatcher)" := by
      intro x hx
      rcases Option.map_eq_some'.mp hlast with ⟨y, hy, hval⟩
      have : x = y := by
        rw [Option.mem_def] at hx
        rw [hx] at hy
        exact Option.some.inj hy.symm ▸ rfl
      rw [Option.mem_def] at hx
      rw [hy] at hx
      cases hx
      exact hval
    have hch1 : List.Chain' speakerAlt
        (st.messages ++ [mkMessage "Chris (Driver)" "Responded to dispatcher"]) := by
      refine chain'_concat_speaker hch (fun x hx => ?_)
      rw [hlastx x hx, speaker_of_mkMessage]
      simp
    have hh1 : (st.messages ++ [mkMessage "Chris (Driver)" "Responded to dispatcher"]).head? =
        st.messages.head? := head?_concat_of_ne_nil _ hne
    have hch2 : List.Chain' speakerAlt
        ((st.messages ++ [mkMessage "Chris (Driver)" "Responded to dispatcher"]) ++
          [mkMessage "Tim (Dispatcher)" "Responded to driver"]) := by
      refine chain'_concat_speaker hch1 (fun x hx => ?_)
      rw [List.getLast?_concat] at hx
      rw [Option.mem_def] at hx
      cases hx
      rw [speaker_of_mkMessage, speaker_of_mkMessage]
      simp
    have hlast2 :
        ((st.messages ++ [mkMessage "Chris (Driver)" "Responded to dispatcher"]) ++
          [mkMessage "Tim (Dispatcher)" "Responded to driver"]).getLast?.map
            (fun m => lookupKey m "speaker") = some (some "Tim (Dispatcher)") := by
      rw [List.getLast?_concat]
      simp [speaker_of_mkMessage]
    have hh2 :
        ((st.messages ++ [mkMessage "Chris (Driver)" "Responded to dispatcher"]) ++
          [mkMessage "Tim (Dispatcher)" "Responded to driver"]).head? =
        st.messages.head? := by
      rw [head?_concat_of_ne_nil _ (by simp), hh1]
    cases hc : is_concluded st with
    | true => rw [workerLoop_concluded_step env st elapsed i hc]; exact ⟨hch, rfl⟩
    | false =>
      by_cases h2 : 600 < elapsed
      · rw [workerLoop_timeout_step env st elapsed i hc h2]; exact ⟨hch, rfl⟩
      · rw [workerLoop_iter_step env st elapsed i hc h2]
        cases hok : (env.driverTurn i).ok with
        | false =>
          cases hsig : (env.driverTurn i).signalsEnd with
          | true =>
            simp only [hok, hsig, Bool.true_eq_false, Bool.false_eq_true, eq_self_iff_true,
              if_false, if_true, is_concluded_add_message, is_concluded_set_concluded, hc,
              messages_set_concluded, messages_add_message]
            exact ⟨hch, trivial⟩
          | false =>
            simp only [hok, hsig, Bool.true_eq_false, Bool.false_eq_true, eq_self_iff_true,
              if_false, if_true, is_concluded_add_message, is_concluded_set_concluded, hc,
              messages_set_concluded, messages_add_message]
            exact ⟨hch, trivial⟩
        | true =>
          cases hsig : (env.driverTurn i).signalsEnd with
          | true =>
            simp only [hok, hsig, Bool.true_eq_false, Bool.false_eq_true, eq_self_iff_true,
              if_false, if_true, is_concluded_add_message, is_concluded_set_concluded, hc,
              messages_set_concluded, messages_add_message]
            exact ⟨hch1, hh1⟩
          | false =>
            simp only [hok, hsig, Bool.false_eq_true, Bool.true_eq_false, if_false,
              is_concluded_add_message, is_concluded_set_concluded, hc]
            cases hok2 : (env.dispatcherTurn i).ok with
            | false =>
              cases hsig2 : (env.dispatcherTurn i).signalsEnd with
              | true =>
                simp only [hok2, hsig2, Bool.true_eq_false, Bool.false_eq_true,
                  eq_self_iff_true, if_false, if_true, is_concluded_add_message,
                  is_concluded_set_concluded, hc, messages_set_concluded, messages_add_message]
                exact ⟨hch1, hh1⟩
              | false =>
                simp only [hok2, hsig2, Bool.true_eq_false, Bool.false_eq_true,
                  eq_self_iff_true, if_false, if_true, is_concluded_add_message,
                  is_concluded_set_concluded, hc, messages_set_concluded, messages_add_message]
                exact ⟨hch1, hh1⟩
            | true =>
              cases hsig2 : (env.dispatcherTurn i).signalsEnd with
              | true =>
                simp only [hok2, hsig2, Bool.true_eq_false, Bool.false_eq_true,
                  eq_self_iff_true, if_false, if_true, is_concluded_add_message,
                  is_concluded_set_concluded, hc, messages_set_concluded, messages_add_message]
                exact ⟨hch2, hh2⟩
              | false =>
                simp only [hok2, hsig2, Bool.false_eq_true, Bool.true_eq_false, if_false,
                  is_concluded_add_message, is_concluded_set_concluded, hc]
                have hrec := ih (elapsed + 2 + (env.driverTurn i).duration + 2 +
                    (env.dispatcherTurn i).duration)
                  (add_message
                    (add_message st "Chris (Driver)" "Responded to dispatcher")
                    "Tim (Dispatcher)" "Responded to driver")
                  (i + 1) (by omega)
                  (by simpa [messages_add_message] using hch2)
                  (by simpa [messages_add_message] using hlast2)
                refine ⟨hrec.1, ?_⟩
                rw [hrec.2]
                simpa [messages_add_message] using hh2


/-- Appending a turn whose speaker differs from the last turn of an
alternating conversation keeps the conversation alternating. -/
theorem chain'_concat_turn {conv : List ConversationTurn} {t : ConversationTurn}
    (hch : List.Chain' (fun a b : ConversationTurn => a.speaker ≠ b.speaker) conv)
    (hlast : ∀ x ∈ conv.getLast?, x.speaker ≠ t.speaker) :
    List.Chain' (fun a b : ConversationTurn => a.speaker ≠ b.speaker) (conv ++ [t]) := by
  rw [List.chain'_append]
  refine ⟨hch, List.chain'_singleton t, fun x hx y hy => ?_⟩
  simp only [List.head?_cons, Option.mem_def, Option.some.injEq] at hy
  subst hy
  exact hlast x hx

/-- The service generation loop keeps the conversation strictly
alternating and keeps its first turn, whenever it starts from an
alternating conversation ending with a Dispatcher turn. -/
theorem convLoop_alternates (llm : List PyDict → String) (dsys : String) :
    ∀ n conv dmsgs,
      List.Chain' (fun a b : ConversationTurn => a.speaker ≠ b.speaker) conv →
      conv.getLast?.map ConversationTurn.speaker = some "Dispatcher" →
      List.Chain' (fun a b : ConversationTurn => a.speaker ≠ b.speaker)
        (convLoop llm dsys n conv dmsgs) ∧
      (convLoop llm dsys n conv dmsgs).head? = conv.head? := by
  intro n
  induction n with
  | zero => intro conv dmsgs hch hlast; exact ⟨hch, rfl⟩
  | succ n ih =>
    intro conv dmsgs hch hlast
    have hne : conv ≠ [] := by
      intro h
      rw [h] at hlast
      simp at hlast
    have hlastx : ∀ x ∈ conv.getLast?, x.speaker = "Dispatcher" := by
      intro x hx
      rcases Option.map_eq_some'.mp hlast with ⟨y, hy, hval⟩
      rw [Option.mem_def] at hx
      rw [hy] at hx
      cases hx
      exact hval
    have hch1 : ∀ s : String,
        List.Chain' (fun a b : ConversationTurn => a.speaker ≠ b.speaker)
          (conv ++ [(⟨"Driver", s⟩ : ConversationTurn)]) := by
      intro s
      refine chain'_concat_turn hch (fun x hx => ?_)
      rw [hlastx x hx]
      simp
    have hh1 : ∀ t : ConversationTurn, (conv ++ [t]).head? = conv.head? :=
      fun t => head?_concat_of_ne_nil t hne
    have hch2 : ∀ s s' : String,
        List.Chain' (fun a b : ConversationTurn => a.speaker ≠ b.speaker)
          ((conv ++ [(⟨"Driver", s⟩ : ConversationTurn)]) ++
            [(⟨"Dispatcher", s'⟩ : ConversationTurn)]) := by
      intro s s'
      refine chain'_concat_turn (hch1 s) (fun x hx => ?_)
      rw [List.getLast?_concat, Option.mem_def] at hx
      cases Option.some.inj hx
      simp
    have hlast2 : ∀ s s' : String,
        ((conv ++ [(⟨"Driver", s⟩ : ConversationTurn)]) ++
          [(⟨"Dispatcher", s'⟩ : ConversationTurn)]).getLast?.map
          ConversationTurn.speaker = some "Dispatcher" := by
      intro s s'
      rw [List.getLast?_concat]
      rfl
    have hh2 : ∀ s s' : String,
        ((conv ++ [(⟨"Driver", s⟩ : ConversationTurn)]) ++
          [(⟨"Dispatcher", s'⟩ : ConversationTurn)]).head? = conv.head? := by
      intro s s'
      rw [head?_concat_of_ne_nil _ (by simp), hh1]
    simp only [convLoop]
    split
    · exact ⟨hch1 _, hh1 _⟩
    · split
      · exact ⟨hch2 _ _, hh2 _ _⟩
      · refine ⟨(ih _ _ (hch2 _ _) (hlast2 _ _)).1, ?_⟩
        rw [(ih _ _ (hch2 _ _) (hlast2 _ _)).2, hh2]


/-- disconnect_all on a state with no registered session handle attempts
no close at all. -/
theorem disconnect_all_no_sessions (st : ConvState)
    (h1 : st.dispatcher_session = none) (h2 : st.driver_session = none) :
    disconnect_all st = Except.ok [] := by
  simp [disconnect_all, h1, h2, bind, Except.bind, pure, Except.pure]

/-- C1 (divergence): in the multi-agent worker entrypoint, at the moment
just before the opening utterance is generated — directly after reset(),
since the entrypoint constructs its sessions as local variables and never
calls set_dispatcher_session or set_driver_session — both session handles
are absent from the shared state, and they stay absent throughout the
whole run, so disconnect_all (invoked from an end_conversation tool at
teardown) issues a close on no session, contrary to the claim that both
registered sessions are closed. -/
theorem worker_sessions_never_registered :
    (∀ prior : ConvState,
      get_dispatcher_session (reset prior) = none ∧
      get_driver_session (reset prior) = none ∧
      disconnect_all (reset prior) = Except.ok []) ∧
    (∀ (env : WorkerEnv) (prior : ConvState) (utter : Nat → String),
      get_dispatcher_session (runWorker env prior utter).1 = none ∧
      get_driver_session (runWorker env prior utter).1 = none ∧
      disconnect_all (runWorker env prior utter).1 = Except.ok []) := by
  constructor
  · intro prior
    exact ⟨rfl, rfl, disconnect_all_no_sessions _ rfl rfl⟩
  · intro env prior utter
    have hpres := workerLoop_preserves env
      (fun st => st.dispatcher_session = none ∧ st.driver_session = none)
      (fun st b hP => hP) (fun st hP => hP) (fun st hP => hP) 601
    have hfinal : (runWorker env prior utter).1.dispatcher_session = none ∧
        (runWorker env prior utter).1.driver_session = none := by
      unfold runWorker
      cases hok : env.openingTurn.ok with
      | false =>
        cases hsig : env.openingTurn.signalsEnd with
        | true => simp [hok, hsig, reset, set_concluded]
        | false => simp [hok, hsig, reset, set_concluded]
      | true =>
        cases hsig : env.openingTurn.signalsEnd with
        | true =>
          simp only [hok, hsig, Bool.true_eq_false, if_false, if_true]
          exact hpres 0 _ 0 (by omega) ⟨rfl, rfl⟩
        | false =>
          simp only [hok, hsig, Bool.true_eq_false, Bool.false_eq_true, if_false]
          exact hpres 0 _ 0 (by omega) ⟨rfl, rfl⟩
    exact ⟨hfinal.1, hfinal.2, disconnect_all_no_sessions _ hfinal.1 hfinal.2⟩

/-- C10: every message the worker appends to the shared history has one
of the three fixed placeholder texts, and the whole run is independent of
the utterances actually generated (they are an ignored argument), so the
conversation context rebuilt from the history never contains generated
utterance content. -/
theorem worker_history_fixed_placeholder_texts :
    (∀ (env : WorkerEnv) (prior : ConvState) (utter : Nat → String) (m : PyDict),
      m ∈ (runWorker env prior utter).1.messages →
      m = mkMessage "Tim (Dispatcher)" "Initiated greeting" ∨
      m = mkMessage "Chris (Driver)" "Responded to dispatcher" ∨
      m = mkMessage "Tim (Dispatcher)" "Responded to driver") ∧
    (∀ (env : WorkerEnv) (prior : ConvState) (u u' : Nat → String),
      runWorker env prior u = runWorker env prior u') := by
  constructor
  · intro env prior utter m
    have hpres := workerLoop_preserves env
      (fun st => ∀ x ∈ st.messages,
        x = mkMessage "Tim (Dispatcher)" "Initiated greeting" ∨
        x = mkMessage "Chris (Driver)" "Responded to dispatcher" ∨
        x = mkMessage "Tim (Dispatcher)" "Responded to driver")
      (fun st b hP => by
        intro x hx
        exact hP x (by simpa [messages_set_concluded] using hx))
      (fun st hP => by
        intro x hx
        rw [messages_add_message] at hx
        rcases List.mem_append.mp hx with h | h
        · exact hP x h
        · rcases List.mem_singleton.mp h with rfl
          exact Or.inr (Or.inl rfl))
      (fun st hP => by
        intro x hx
        rw [messages_add_message] at hx
        rcases List.mem_append.mp hx with h | h
        · exact hP x h
        · rcases List.mem_singleton.mp h with rfl
          exact Or.inr (Or.inr rfl))
      601
    unfold runWorker
    cases hok : env.openingTurn.ok with
    | false =>
      cases hsig : env.openingTurn.signalsEnd with
      | true =>
        intro hm
        simp [hok, hsig, reset, set_concluded] at hm
      | false =>
        intro hm
        simp [hok, hsig, reset, set_concluded] at hm
    | true =>
      cases hsig : env.openingTurn.signalsEnd with
      | true =>
        simp only [hok, hsig, Bool.true_eq_false, if_false, if_true]
        intro hm
        refine hpres 0 _ 0 (by omega) ?_ m hm
        intro x hx
        rcases List.mem_singleton.mp (by
          simpa [messages_add_message, messages_set_concluded, reset] using hx) with rfl
        exact Or.inl rfl
      | false =>
        simp only [hok, hsig, Bool.true_eq_false, Bool.false_eq_true, if_false]
        intro hm
        refine hpres 0 _ 0 (by omega) ?_ m hm
        intro x hx
        rcases List.mem_singleton.mp (by
          simpa [messages_add_message, reset] using hx) with rfl
        exact Or.inl rfl
  · intro env prior u u'
    rfl

/-- C10 witness: the theorem applied to a concrete run whose history
contains the opening placeholder message. -/
theorem worker_history_fixed_placeholder_texts_witness :
    mkMessage "Tim (Dispatcher)" "Initiated greeting" =
      mkMessage "Tim (Dispatcher)" "Initiated greeting" ∨
    mkMessage "Tim (Dispatcher)" "Initiated greeting" =
      mkMessage "Chris (Driver)" "Responded to dispatcher" ∨
    mkMessage "Tim (Dispatcher)" "Initiated greeting" =
      mkMessage "Tim (Dispatcher)" "Responded to driver" :=
  worker_history_fixed_placeholder_texts.1
    ⟨⟨true, 0, true⟩, fun _ => ⟨true, 0, false⟩, fun _ => ⟨true, 0, false⟩⟩
    ⟨false, none, none, none, []⟩ (fun _ => "")
    (mkMessage "Tim (Dispatcher)" "Initiated greeting")
    (by
      unfold runWorker
      simp only [Bool.true_eq_false, if_false, if_true]
      rw [workerLoop_concluded_step
        ⟨⟨true, 0, true⟩, fun _ => ⟨true, 0, false⟩, fun _ => ⟨true, 0, false⟩⟩
        (add_message (set_concluded (reset ⟨false, none, none, none, []⟩) true)
          "Tim (Dispatcher)" "Initiated greeting") 0 0 rfl]
      simp [add_message, set_concluded, reset, mkMessage])

/-- C2: in the service generation loop the Dispatcher speaks first and
speakers strictly alternate, and in the worker run the history is empty
(failed opening) or starts with the dispatcher label, with adjacent
entries always carrying different speaker labels. -/
theorem dispatcher_first_strict_alternation :
    (∀ (llm : List PyDict → String) (dsys drsys : String) (max_turns : Nat),
      (generate_conversation llm dsys drsys max_turns).head?.map ConversationTurn.speaker =
        some "Dispatcher" ∧
      List.Chain' (fun a b : ConversationTurn => a.speaker ≠ b.speaker)
        (generate_conversation llm dsys drsys max_turns)) ∧
    (∀ (env : WorkerEnv) (prior : ConvState) (utter : Nat → String),
      ((runWorker env prior utter).1.messages = [] ∨
        (runWorker env prior utter).1.messages.head?.map (fun m => lookupKey m "speaker") =
          some (some "Tim (Dispatcher)")) ∧
      List.Chain' speakerAlt (runWorker env prior utter).1.messages) := by
  constructor
  · intro llm dsys drsys max_turns
    unfold generate_conversation
    have h := convLoop_alternates llm drsys max_turns
      [(⟨"Dispatcher", llm
          [[("role", "system"), ("content", dsys)],
           [("role", "user"), ("content", "Start the conversation with a friendly greeting.")]]⟩ :
        ConversationTurn)]
      [[("role", "system"), ("content", dsys)],
       [("role", "assistant"), ("content", llm
          [[("role", "system"), ("content", dsys)],
           [("role", "user"), ("content", "Start the conversation with a friendly greeting.")]])]]
      (List.chain'_singleton _) (by simp)
    exact ⟨by rw [h.2]; rfl, h.1⟩
  · intro env prior utter
    unfold runWorker
    cases hok : env.openingTurn.ok with
    | false =>
      cases hsig : env.openingTurn.signalsEnd with
      | true =>
        simp only [hok, hsig, Bool.true_eq_false, if_false, if_true]
        exact ⟨Or.inl rfl, List.chain'_nil⟩
      | false =>
        simp only [hok, hsig, Bool.true_eq_false, Bool.false_eq_true, if_false]
        exact ⟨Or.inl rfl, List.chain'_nil⟩
    | true =>
      cases hsig : env.openingTurn.signalsEnd with
      | true =>
        simp only [hok, hsig, Bool.true_eq_false, if_false, if_true]
        have h := workerLoop_alternates env 601 0
          (add_message (set_concluded (reset prior) true)
            "Tim (Dispatcher)" "Initiated greeting") 0 (by omega)
          (by simp [messages_add_message, messages_set_concluded, reset])
          (by simp [messages_add_message, messages_set_concluded, reset, speaker_of_mkMessage])
        refine ⟨Or.inr ?_, h.1⟩
        rw [h.2]
        simp [messages_add_message, messages_set_concluded, reset, speaker_of_mkMessage]
      | false =>
        simp only [hok, hsig, Bool.true_eq_false, Bool.false_eq_true, if_false]
        have h := workerLoop_alternates env 601 0
          (add_message (reset prior) "Tim (Dispatcher)" "Initiated greeting") 0 (by omega)
          (by simp [messages_add_message, reset])
          (by simp [messages_add_message, reset, speaker_of_mkMessage])
        refine ⟨Or.inr ?_, h.1⟩
        rw [h.2]
        simp [messages_add_message, reset, speaker_of_mkMessage]

end DispatcherAgents
